import Mathlib

/-!
Verification of the GLB/GLTF → 2D projection pipeline
(`tools/glb_projection.py`) and the paint-saving endpoint (`app.py`).

Python floats are modelled as exact rationals (`ℚ`); numpy arrays as Lean
lists; the raster buffer as a pair of pixel-indexed functions.  Fallible
operations return `Option`.
-/

/-! ## Basic geometry types -/

/-- A 2D point (image-plane coordinates or UV coordinates). -/
abbrev Q2 := ℚ × ℚ

/-- A 3D vertex position. -/
abbrev Q3 := ℚ × ℚ × ℚ

/-! ## Projector (`project_and_normalize`, glb_projection.py lines 100-123) -/

/-- Projection axis, mirroring `AXIS_MAP`: `front` = (X,Y), `side` = (Z,Y),
`top` = (X,Z). -/
inductive Axis where
  | front
  | side
  | top
deriving DecidableEq

/-- Coordinate selection `vertices[:, [xi, yi]]` for the chosen axis
(`AXIS_MAP`). -/
def axisSel (a : Axis) (v : Q3) : Q2 :=
  match a with
  | .front => (v.1, v.2.1)
  | .side => (v.2.2, v.2.1)
  | .top => (v.1, v.2.2)

/-- Minimum of a list of rationals (`np.min` over a non-empty array;
0 for the empty list, which the source never queries). -/
def listMin : List ℚ → ℚ
  | [] => 0
  | x :: xs => xs.foldl min x

/-- Maximum of a list of rationals (`np.max` over a non-empty array). -/
def listMax : List ℚ → ℚ
  | [] => 0
  | x :: xs => xs.foldl max x

/-- `pts2d = vertices[:, [xi, yi]]`: the per-vertex 2D coordinate pairs. -/
def projPts (vertices : List Q3) (a : Axis) : List Q2 :=
  vertices.map (axisSel a)

/-- `mn[0]`: minimum of the selected first coordinates. -/
def projMinX (vertices : List Q3) (a : Axis) : ℚ :=
  listMin ((projPts vertices a).map Prod.fst)

/-- `mx[0]`: maximum of the selected first coordinates. -/
def projMaxX (vertices : List Q3) (a : Axis) : ℚ :=
  listMax ((projPts vertices a).map Prod.fst)

/-- `mn[1]`: minimum of the selected second coordinates. -/
def projMinY (vertices : List Q3) (a : Axis) : ℚ :=
  listMin ((projPts vertices a).map Prod.snd)

/-- `mx[1]`: maximum of the selected second coordinates. -/
def projMaxY (vertices : List Q3) (a : Axis) : ℚ :=
  listMax ((projPts vertices a).map Prod.snd)

/-- `rng[0] = mx[0] - mn[0]`. -/
def projRngX (vertices : List Q3) (a : Axis) : ℚ :=
  projMaxX vertices a - projMinX vertices a

/-- `rng[1] = mx[1] - mn[1]`. -/
def projRngY (vertices : List Q3) (a : Axis) : ℚ :=
  projMaxY vertices a - projMinY vertices a

/-- `max_range = rng.max()` (before the degeneracy guard). -/
def projMaxRange (vertices : List Q3) (a : Axis) : ℚ :=
  max (projRngX vertices a) (projRngY vertices a)

/-- `project_and_normalize(vertices, axis, img_size, padding_ratio)`:
select the two coordinates for the axis, guard `max_range` below by
replacing it with 1 when it is `< 1e-9`, then map every point to
`point * scale + offset` with `pad = img_size * padding_ratio`,
`scale = (img_size - 2*pad) / max_range`, and
`offset = (img_size - rng*scale)/2 - mn*scale` componentwise. -/
def project_and_normalize (vertices : List Q3) (a : Axis) (img_size : ℕ)
    ( padding_ratio : ℚ) : List Q2 :=
  let mr0 := projMaxRange vertices a
  let max_range := if mr0 < 1 / 10 ^ 9 then 1 else mr0
  let pad := (img_size : ℚ) * padding_ratio
  let scale := ((img_size : ℚ) - 2 * pad) / max_range
  let offx := ((img_size : ℚ) - projRngX vertices a * scale) / 2
    - projMinX vertices a * scale
  let offy := ((img_size : ℚ) - projRngY vertices a * scale) / 2
    - projMinY vertices a * scale
  (projPts vertices a).map (fun p => (p.1 * scale + offx, p.2 * scale + offy))

/-! ## UVResolver (`extract_uvs`, glb_projection.py lines 59-93)

`mesh.visual.uv` (the authored per-vertex UVs) and the result of the
`mesh.visual.to_texture()` library call are external inputs of the
function; both are modelled as `Option (List Q2)` parameters (`none`
models absence or the caught exception). -/

/-- Fallback planar mapping (lines 84-93): normalize vertex X to `u` and
vertex Y to `1 - normalized y`, substituting a denominator of 1 when a
bounding-box extent is zero (`rng[rng == 0] = 1.0`). -/
def planar_fallback (vertices : List Q3) : List Q2 :=
  let mnx := listMin (vertices.map (fun v => v.1))
  let mxx := listMax (vertices.map (fun v => v.1))
  let mny := listMin (vertices.map (fun v => v.2.1))
  let mxy := listMax (vertices.map (fun v => v.2.1))
  let rx0 := mxx - mnx
  let ry0 := mxy - mny
  let rx := if rx0 = 0 then 1 else rx0
  let ry := if ry0 = 0 then 1 else ry0
  vertices.map (fun v => ((v.1 - mnx) / rx, 1 - (v.2.1 - mny) / ry))

/-- Secondary path of `extract_uvs` (lines 74-93): accept the
`to_texture()` UVs when present with matching count, else the planar
fallback. -/
def extract_uvs_fallback (vertices : List Q3)
    (to_texture_uv : Option (List Q2)) : List Q2 :=
  match to_texture_uv with
  | some uv => if uv.length = vertices.length then uv
               else planar_fallback vertices
  | none => planar_fallback vertices

/-- `extract_uvs` (lines 59-93): authored UVs win when present with a
count equal to the vertex count; otherwise the secondary path runs. -/
def extract_uvs (vertices : List Q3) (visual_uv : Option (List Q2))
    (to_texture_uv : Option (List Q2)) : List Q2 :=
  match visual_uv with
  | some uv => if uv.length = vertices.length then uv
               else extract_uvs_fallback vertices to_texture_uv
  | none => extract_uvs_fallback vertices to_texture_uv

/-! ## Rasterizer (`rasterize`, glb_projection.py lines 130-190) -/

/-- The barycentric denominator
`(v1y - v2y)*(v0x - v2x) + (v2x - v1x)*(v0y - v2y)` (line 167).
It equals twice the triangle's signed area. -/
def baryDenom (v0 v1 v2 : Q2) : ℚ :=
  (v1.2 - v2.2) * (v0.1 - v2.1) + (v2.1 - v1.1) * (v0.2 - v2.2)

/-- The signed area of the triangle `(v0, v1, v2)` (the standard
half-cross-product formula; not itself computed by the source, used to
compare the source's threshold against the spec's wording). -/
def signedArea (v0 v1 v2 : Q2) : ℚ :=
  ((v1.1 - v0.1) * (v2.2 - v0.2) - (v2.1 - v0.1) * (v1.2 - v0.2)) / 2

/-- Barycentric weight `w0` at the point `(gx, gy)` (line 171). -/
def baryW0 (v0 v1 v2 : Q2) (gx gy : ℚ) : ℚ :=
  ((v1.2 - v2.2) * (gx - v2.1) + (v2.1 - v1.1) * (gy - v2.2))
    / baryDenom v0 v1 v2

/-- Barycentric weight `w1` at the point `(gx, gy)` (line 172). -/
def baryW1 (v0 v1 v2 : Q2) (gx gy : ℚ) : ℚ :=
  ((v2.2 - v0.2) * (gx - v2.1) + (v0.1 - v2.1) * (gy - v2.2))
    / baryDenom v0 v1 v2

/-- Barycentric weight `w2 = 1 - w0 - w1` (line 173). -/
def baryW2 (v0 v1 v2 : Q2) (gx gy : ℚ) : ℚ :=
  1 - baryW0 v0 v1 v2 gx gy - baryW1 v0 v1 v2 gx gy

/-- `np.clip(q, 0.0, 1.0)`. -/
def clamp01 (q : ℚ) : ℚ := min 1 (max 0 q)

/-- The raster buffer: `uv_buf` maps a pixel (row `qy`, column `qx`) to
its UV value (`none` models the NaN initialization), `coverage` is the
boolean coverage mask. -/
structure RasterBuf where
  uv_buf : ℤ → ℤ → Option Q2
  coverage : ℤ → ℤ → Bool

/-- The initial buffer: all-NaN `uv_buf`, all-false `coverage`
(lines 141-142). -/
def initBuf : RasterBuf := ⟨fun _ _ => none, fun _ _ => false⟩

/-- Clamped integer bounding box left edge `x0 = max(0, floor(min x))`
(line 152). -/
def triX0 (v0 v1 v2 : Q2) : ℤ :=
  max 0 ⌊min v0.1 (min v1.1 v2.1)⌋

/-- `x1 = min(img_size - 1, ceil(max x))` (line 153). -/
def triX1 (S : ℕ) (v0 v1 v2 : Q2) : ℤ :=
  min ((S : ℤ) - 1) ⌈max v0.1 (max v1.1 v2.1)⌉

/-- `y0 = max(0, floor(min y))` (line 154). -/
def triY0 (v0 v1 v2 : Q2) : ℤ :=
  max 0 ⌊min v0.2 (min v1.2 v2.2)⌋

/-- `y1 = min(img_size - 1, ceil(max y))` (line 155). -/
def triY1 (S : ℕ) (v0 v1 v2 : Q2) : ℤ :=
  min ((S : ℤ) - 1) ⌈max v0.2 (max v1.2 v2.2)⌉

/-- Whether the write mask of the triangle covers pixel `(qx, qy)`:
the pixel lies in the clamped bounding box and the barycentric weights
at its center `(qx + 0.5, qy + 0.5)` are all nonnegative (lines 161-180).
The source writes through `px = clip(int(gx - 0.5), 0, S-1)` (and
likewise `py`); since `gx - 0.5 = x` is an integer already inside
`[x0, x1] ⊆ [0, S-1]`, that index is the pixel's own coordinate. -/
def triHit (S : ℕ) (v0 v1 v2 : Q2) (qx qy : ℤ) : Prop :=
  triX0 v0 v1 v2 ≤ qx ∧ qx ≤ triX1 S v0 v1 v2 ∧
  triY0 v0 v1 v2 ≤ qy ∧ qy ≤ triY1 S v0 v1 v2 ∧
  0 ≤ baryW0 v0 v1 v2 ((qx : ℚ) + 1/2) ((qy : ℚ) + 1/2) ∧
  0 ≤ baryW1 v0 v1 v2 ((qx : ℚ) + 1/2) ((qy : ℚ) + 1/2) ∧
  0 ≤ baryW2 v0 v1 v2 ((qx : ℚ) + 1/2) ((qy : ℚ) + 1/2)

instance (S : ℕ) (v0 v1 v2 : Q2) (qx qy : ℤ) :
    Decidable (triHit S v0 v1 v2 qx qy) := by
  unfold triHit
  infer_instance

/-- Interpolated UV component: `w0*c0 + w1*c1 + w2*c2` at the pixel
center (lines 182-183). -/
def interpUV (v0 v1 v2 : Q2) (c0 c1 c2 : ℚ) (qx qy : ℤ) : ℚ :=
  baryW0 v0 v1 v2 ((qx : ℚ) + 1/2) ((qy : ℚ) + 1/2) * c0 +
  baryW1 v0 v1 v2 ((qx : ℚ) + 1/2) ((qy : ℚ) + 1/2) * c1 +
  baryW2 v0 v1 v2 ((qx : ℚ) + 1/2) ((qy : ℚ) + 1/2) * c2

/-- One triangle step of `rasterize` (lines 144-187): skip when the
clamped bounding box is empty or `|denom| < 1e-10`; otherwise write the
clamped interpolated UV and set coverage at every pixel whose center has
all three barycentric weights nonnegative. -/
def rasterizeTri (S : ℕ) (v0 v1 v2 uv0 uv1 uv2 : Q2)
    (buf : RasterBuf) : RasterBuf :=
  if triX0 v0 v1 v2 > triX1 S v0 v1 v2 ∨ triY0 v0 v1 v2 > triY1 S v0 v1 v2
  then buf
  else if |baryDenom v0 v1 v2| < 1 / 10 ^ 10 then buf
  else
    { uv_buf := fun qy qx =>
        if triHit S v0 v1 v2 qx qy then
          some (clamp01 (interpUV v0 v1 v2 uv0.1 uv1.1 uv2.1 qx qy),
                clamp01 (interpUV v0 v1 v2 uv0.2 uv1.2 uv2.2 qx qy))
        else buf.uv_buf qy qx,
      coverage := fun qy qx =>
        if triHit S v0 v1 v2 qx qy then true else buf.coverage qy qx }

/-- `rasterize(verts2d, faces, uvs, img_size)` (lines 130-190): fold the
per-triangle step over the faces in order, starting from the NaN/false
buffer. -/
def rasterize (verts2d : List Q2) (faces : List (ℕ × ℕ × ℕ))
    (uvs : List Q2) (S : ℕ) : RasterBuf :=
  faces.foldl
    (fun buf f =>
      rasterizeTri S (verts2d.getD f.1 (0, 0)) (verts2d.getD f.2.1 (0, 0))
        (verts2d.getD f.2.2 (0, 0)) (uvs.getD f.1 (0, 0))
        (uvs.getD f.2.1 (0, 0)) (uvs.getD f.2.2 (0, 0)) buf)
    initBuf

/-- The RasterBuffer invariant of the data model: a pixel's UV value is
defined iff its coverage flag is set, and every defined UV component
lies in `[0, 1]`. -/
def BufInv (buf : RasterBuf) : Prop :=
  ∀ qy qx,
    ((buf.uv_buf qy qx).isSome ↔ buf.coverage qy qx = true) ∧
    ∀ u v, buf.uv_buf qy qx = some (u, v) →
      0 ≤ u ∧ u ≤ 1 ∧ 0 ≤ v ∧ v ≤ 1

/-! ## SymmetryMatcher (`find_symmetric_uv_pairs`, glb_projection.py
lines 197-262)

The source's chunked distance-matrix scan is observationally a
sequential greedy loop over face indices: distances are independent of
the `used` marks, and each row masks self and the currently-used faces
with `inf` immediately before its own `argmin`.  The embedding runs that
sequential loop directly. -/

/-- Chebyshev distance `np.abs(diff).max()` between two 3D points
(line 237). -/
def cheb (a b : Q3) : ℚ :=
  max |a.1 - b.1| (max |a.2.1 - b.2.1| |a.2.2 - b.2.2|)

/-- Triangle centroid `verts[faces].mean(axis=1)` (line 221). -/
def centroid (verts : List Q3) (f : ℕ × ℕ × ℕ) : Q3 :=
  let a := verts.getD f.1 (0, 0, 0)
  let b := verts.getD f.2.1 (0, 0, 0)
  let c := verts.getD f.2.2 (0, 0, 0)
  ((a.1 + b.1 + c.1) / 3, (a.2.1 + b.2.1 + c.2.1) / 3,
   (a.2.2 + b.2.2 + c.2.2) / 3)

/-- Symmetry plane for mirror matching (`SYMMETRY_FLIP`): the index of
the coordinate negated by the mirror. -/
inductive SymAxis where
  | yz
  | xz
  | xy
deriving DecidableEq

/-- `mirror[:, flip_idx] *= -1` (lines 224-225). -/
def mirrorPt (s : SymAxis) (p : Q3) : Q3 :=
  match s with
  | .yz => (-p.1, p.2.1, p.2.2)
  | .xz => (p.1, -p.2.1, p.2.2)
  | .xy => (p.1, p.2.1, -p.2.2)

/-- One scan step of the `argmin` of the greedy search: skip the face
itself and the used faces (both masked to `inf` in the source), else
keep the first index attaining the minimum distance to the mirror
centroid `m`. -/
def bcStep (m : Q3) (fi : ℕ) (used : Finset ℕ) (acc : Option (ℕ × ℚ))
    (jc : ℕ × Q3) : Option (ℕ × ℚ) :=
  if jc.1 = fi ∨ jc.1 ∈ used then acc
  else
    match acc with
    | none => some (jc.1, cheb jc.2 m)
    | some best =>
      if cheb jc.2 m < best.2 then some (jc.1, cheb jc.2 m) else acc

/-- The `argmin` step of the greedy search (lines 244-247): scan the
centroids in index order with `bcStep`. -/
def bestCandidate (cs : List Q3) (m : Q3) (fi : ℕ) (used : Finset ℕ) :
    Option (ℕ × ℚ) :=
  (cs.enum).foldl (bcStep m fi used) none

/-- One iteration of the greedy matching loop body (lines 239-252) for
face `fi`: `none` when `fi` is already used, has no candidate, or its
nearest candidate is farther than `tol`; otherwise the matched partner
together with the updated used set (both faces marked). -/
def greedyStep (cs ms : List Q3) (tol : ℚ) (fi : ℕ) (used : Finset ℕ) :
    Option (ℕ × Finset ℕ) :=
  if fi ∈ used then none
  else
    match bestCandidate cs (ms.getD fi (0, 0, 0)) fi used with
    | none => none
    | some jd =>
      if jd.2 ≤ tol then some (jd.1, insert fi (insert jd.1 used))
      else none

/-- The greedy matching loop (lines 233-252) over the remaining face
indices: an unused face `fi` is paired with its nearest unused
non-self candidate `j` when the distance is at most `tol`, marking both
used. -/
def greedyAux (cs ms : List Q3) (tol : ℚ) :
    List ℕ → Finset ℕ → List (ℕ × ℕ)
  | [], _ => []
  | fi :: rest, used =>
    match greedyStep cs ms tol fi used with
    | none => greedyAux cs ms tol rest used
    | some ju => (fi, ju.1) :: greedyAux cs ms tol rest ju.2

/-- The matched face-index pairs produced by the greedy loop of
`find_symmetric_uv_pairs`. -/
def matchedFacePairs (verts : List Q3) (faces : List (ℕ × ℕ × ℕ))
    (s : SymAxis) (tol : ℚ) : List (ℕ × ℕ) :=
  let cs := faces.map (centroid verts)
  let ms := cs.map (mirrorPt s)
  greedyAux cs ms tol (List.range faces.length) ∅

/-- One `{"source": ..., "target": ...}` record (lines 256-259). -/
structure UVPair where
  source : Q2
  target : Q2
deriving DecidableEq

/-- The three vertex indices of a face, in order. -/
def faceVerts (f : ℕ × ℕ × ℕ) : List ℕ := [f.1, f.2.1, f.2.2]

/-- `find_symmetric_uv_pairs` (lines 200-262): for each matched face
pair `(i, j)`, emit one UV record per vertex position
(`for va, vb in zip(faces[i], faces[j])`). -/
def find_symmetric_uv_pairs (verts : List Q3) (faces : List (ℕ × ℕ × ℕ))
    (uvs : List Q2) (s : SymAxis) (tol : ℚ) : List UVPair :=
  (matchedFacePairs verts faces s tol).flatMap (fun p =>
    ((faceVerts (faces.getD p.1 (0, 0, 0))).zip
      (faceVerts (faces.getD p.2 (0, 0, 0)))).map
      (fun q => ⟨uvs.getD q.1 (0, 0), uvs.getD q.2 (0, 0)⟩))

/-! ## ImageComposer (`build_uvmap_image`, glb_projection.py
lines 269-276) -/

/-- The 8-bit channel encoding `(u * 255).astype(np.uint8)`: the cast
truncates toward zero, which for the clamped nonnegative buffer values
is the floor. -/
def encodeChannel (u : ℚ) : ℕ := (⌊u * 255⌋).toNat

/-- One RGBA pixel of the UV-map image (lines 272-275): covered pixels
hold `(encode u, encode v, 0, 255)`, uncovered pixels stay `(0,0,0,0)`. -/
def uvmapPixel (buf : RasterBuf) (qy qx : ℤ) : ℕ × ℕ × ℕ × ℕ :=
  if buf.coverage qy qx then
    let uv := (buf.uv_buf qy qx).getD (0, 0)
    (encodeChannel uv.1, encodeChannel uv.2, 0, 255)
  else (0, 0, 0, 0)

/-- A one-pixel covered buffer (UV = (7/1000, 0) at pixel (0,0)) used to
exercise the UV-map channel encoding on a concrete input. -/
def demoBuf : RasterBuf :=
  { uv_buf := fun qy qx => if qy = 0 ∧ qx = 0 then some (7 / 1000, 0)
      else none,
    coverage := fun qy qx => decide (qy = 0 ∧ qx = 0) }

/-! ## CLI entry point (`main`, glb_projection.py lines 310-403)

Only the filesystem-visible behavior is modelled: the filesystem is a
list of existing paths, and a run reports its exit code and the list of
files it writes. -/

/-- The three output paths derived from the model stem and axis name
(lines 342-347). -/
def outputPaths (stem axisName : String) : List String :=
  [stem ++ "_projection_" ++ axisName ++ ".png",
   stem ++ "_uvmap_" ++ axisName ++ ".png",
   stem ++ "_mapping_" ++ axisName ++ ".json"]

/-- Outcome of one CLI run: the process exit code and the files written. -/
structure MainOutcome where
  exitCode : ℕ
  writtenFiles : List String
deriving DecidableEq

/-- `main` (lines 310-403), named `main_run` because Lean reserves
`main` for executables: when the model path is missing the program
prints a diagnostic and exits with status 1 before any output path is
created; otherwise the pipeline runs and the three outputs are written. -/
def main_run (fs : List String) (modelPath stem axisName : String) :
    MainOutcome :=
  if modelPath ∈ fs then
    { exitCode := 0, writtenFiles := outputPaths stem axisName }
  else
    { exitCode := 1, writtenFiles := [] }

/-! ## Paint-saving endpoint (`save_paint`, app.py lines 13-21) -/

/-- The value of one base64 alphabet character (`A-Z a-z 0-9 + /`),
`none` for every other character. -/
def b64CharVal (c : Char) : Option ℕ :=
  if 'A' ≤ c ∧ c ≤ 'Z' then some (c.toNat - 65)
  else if 'a' ≤ c ∧ c ≤ 'z' then some (c.toNat - 97 + 26)
  else if '0' ≤ c ∧ c ≤ '9' then some (c.toNat - 48 + 52)
  else if c = '+' then some 62
  else if c = '/' then some 63
  else none

/-- `base64.b64decode` on a well-formed input: groups of four characters,
with `=` padding only in a final group; `none` models the raised
`binascii.Error`. -/
def b64decodeList : List Char → Option (List ℕ)
  | [] => some []
  | a :: b :: c :: d :: rest =>
    match b64CharVal a, b64CharVal b with
    | some va, some vb =>
      if c = '=' then
        if d = '=' ∧ rest = [] then some [va * 4 + vb / 16] else none
      else
        match b64CharVal c with
        | some vc =>
          if d = '=' then
            if rest = [] then
              some [va * 4 + vb / 16, vb % 16 * 16 + vc / 4]
            else none
          else
            match b64CharVal d with
            | some vd =>
              match b64decodeList rest with
              | some bs =>
                some ((va * 4 + vb / 16) :: (vb % 16 * 16 + vc / 4) ::
                      (vc % 4 * 64 + vd) :: bs)
              | none => none
            | none => none
        | none => none
    | _, _ => none
  | _ => none

/-- The literal anchored by `re.sub("^data:image/png;base64,", ...)`. -/
def dataUrlHeader : List Char :=
  ['d', 'a', 't', 'a', ':', 'i', 'm', 'a', 'g', 'e', '/', 'p', 'n', 'g',
   ';', 'b', 'a', 's', 'e', '6', '4', ',']

/-- Match a literal at the head of a character list, returning the
remainder on success. -/
def dropHeader : List Char → List Char → Option (List Char)
  | [], s => some s
  | _ :: _, [] => none
  | h :: hs, c :: cs => if c = h then dropHeader hs cs else none

/-- The anchored `re.sub` of line 16: remove one leading copy of the
data-URL header when present, otherwise leave the field unchanged. -/
def stripHeader (s : List Char) : List Char :=
  match dropHeader dataUrlHeader s with
  | some r => r
  | none => s

/-- Observable result of a successful `save_paint` request. -/
structure SavePaintResult where
  path : String
  bytes : List ℕ
  body : String
  status : ℕ
deriving DecidableEq

/-- `save_paint` (app.py lines 13-21): strip the data-URL header, decode
base64, write the raw bytes to the one hard-coded model path, and answer
`"OK"` with status 200; `none` models the exception path of a malformed
payload. -/
def save_paint (imageField : List Char) : Option SavePaintResult :=
  match b64decodeList (stripHeader imageField) with
  | some bs =>
    some { path := "static/models/Lamborginhi Aventador_diffuse.jpg",
           bytes := bs, body := "OK", status := 200 }
  | none => none

/-! ## Helper lemmas -/

lemma foldl_min_le_init (l : List ℚ) (x : ℚ) : l.foldl min x ≤ x := by
  induction l generalizing x with
  | nil => simp
  | cons a t ih => exact le_trans (ih (min x a)) (min_le_left x a)

lemma foldl_min_le_mem {l : List ℚ} {y : ℚ} (h : y ∈ l) (x : ℚ) :
    l.foldl min x ≤ y := by
  induction l generalizing x with
  | nil => cases h
  | cons a t ih =>
    rcases List.mem_cons.mp h with rfl | hy
    · exact le_trans (foldl_min_le_init t (min x y)) (min_le_right x y)
    · exact ih hy (min x a)

lemma listMin_le {l : List ℚ} {y : ℚ} (h : y ∈ l) : listMin l ≤ y := by
  cases l with
  | nil => cases h
  | cons a t =>
    rcases List.mem_cons.mp h with rfl | hy
    · exact foldl_min_le_init t y
    · exact foldl_min_le_mem hy a

lemma init_le_foldl_max (l : List ℚ) (x : ℚ) : x ≤ l.foldl max x := by
  induction l generalizing x with
  | nil => simp
  | cons a t ih => exact le_trans (le_max_left x a) (ih (max x a))

lemma mem_le_foldl_max {l : List ℚ} {y : ℚ} (h : y ∈ l) (x : ℚ) :
    y ≤ l.foldl max x := by
  induction l generalizing x with
  | nil => cases h
  | cons a t ih =>
    rcases List.mem_cons.mp h with rfl | hy
    · exact le_trans (le_max_right x y) (init_le_foldl_max t (max x y))
    · exact ih hy (max x a)

lemma le_listMax {l : List ℚ} {y : ℚ} (h : y ∈ l) : y ≤ listMax l := by
  cases l with
  | nil => cases h
  | cons a t =>
    rcases List.mem_cons.mp h with rfl | hy
    · exact init_le_foldl_max t y
    · exact mem_le_foldl_max hy a

lemma projMinX_le (vertices : List Q3) (a : Axis) {v : Q3}
    (hv : v ∈ vertices) : projMinX vertices a ≤ (axisSel a v).1 :=
  listMin_le (List.mem_map_of_mem Prod.fst
    (List.mem_map_of_mem (axisSel a) hv))

lemma le_projMaxX (vertices : List Q3) (a : Axis) {v : Q3}
    (hv : v ∈ vertices) : (axisSel a v).1 ≤ projMaxX vertices a :=
  le_listMax (List.mem_map_of_mem Prod.fst
    (List.mem_map_of_mem (axisSel a) hv))

lemma projMinY_le (vertices : List Q3) (a : Axis) {v : Q3}
    (hv : v ∈ vertices) : projMinY vertices a ≤ (axisSel a v).2 :=
  listMin_le (List.mem_map_of_mem Prod.snd
    (List.mem_map_of_mem (axisSel a) hv))

lemma le_projMaxY (vertices : List Q3) (a : Axis) {v : Q3}
    (hv : v ∈ vertices) : (axisSel a v).2 ≤ projMaxY vertices a :=
  le_listMax (List.mem_map_of_mem Prod.snd
    (List.mem_map_of_mem (axisSel a) hv))

lemma baryDenom_eq_two_signedArea (v0 v1 v2 : Q2) :
    baryDenom v0 v1 v2 = 2 * signedArea v0 v1 v2 := by
  unfold baryDenom signedArea
  ring

/-! ## Claim theorems -/

lemma projector_formula_aux (vertices : List Q3) (a : Axis) (S : ℕ)
    ( padding_ratio : ℚ)
    (hrange : 1 / 10 ^ 9 ≤ projMaxRange vertices a) :
    project_and_normalize vertices a S padding_ratio =
      (let pad := (S : ℚ) * padding_ratio
       let scale := ((S : ℚ) - 2 * pad) / projMaxRange vertices a
       let offx := ((S : ℚ) - projRngX vertices a * scale) / 2
         - projMinX vertices a * scale
       let offy := ((S : ℚ) - projRngY vertices a * scale) / 2
         - projMinY vertices a * scale
       vertices.map (fun v =>
         ((axisSel a v).1 * scale + offx, (axisSel a v).2 * scale + offy))) := by
  have h : ¬ (projMaxRange vertices a < 1 / 10 ^ 9) := not_lt.mpr hrange
  simp only [project_and_normalize, if_neg h, projPts, List.map_map]
  rfl

/-- C1: for a non-empty vertex list whose projected bounding box has
maximum extent at least 1e-9, the Projector maps every vertex to
`p * scale + offset` where `p` is the axis-selected coordinate pair,
`pad = S * r`, `scale = (S - 2*pad) / max_range`, and
`offset = (S - range*scale)/2 - min*scale` componentwise. -/
theorem C1_projector_formula (vertices : List Q3) (a : Axis) (S : ℕ)
    ( padding_ratio : ℚ) (hne : vertices ≠ [])
    (hrange : 1 / 10 ^ 9 ≤ projMaxRange vertices a) :
    project_and_normalize vertices a S padding_ratio =
      (let pad := (S : ℚ) * padding_ratio
       let scale := ((S : ℚ) - 2 * pad) / projMaxRange vertices a
       let offx := ((S : ℚ) - projRngX vertices a * scale) / 2
         - projMinX vertices a * scale
       let offy := ((S : ℚ) - projRngY vertices a * scale) / 2
         - projMinY vertices a * scale
       vertices.map (fun v =>
         ((axisSel a v).1 * scale + offx, (axisSel a v).2 * scale + offy))) :=
  projector_formula_aux vertices a S padding_ratio hrange

/-- Witness for C1 at a concrete two-vertex mesh. -/
theorem C1_projector_formula_witness :
    project_and_normalize [((0 : ℚ), (0 : ℚ), (0 : ℚ)), (2, 3, 1)]
      Axis.front 100 (6 / 100) = [(62 / 3, 6), (238 / 3, 94)] := by
  rw [C1_projector_formula _ _ _ _ (by simp)
    (by norm_num [projMaxRange, projRngX, projRngY, projMaxX, projMaxY,
      projMinX, projMinY, projPts, axisSel, listMin, listMax, min_def,
      max_def])]
  norm_num [projMaxRange, projRngX, projRngY, projMaxX, projMaxY,
    projMinX, projMinY, projPts, axisSel, listMin, listMax, min_def,
    max_def]

/-- C9: when the projected bounding box's maximum extent is below 1e-9,
the Projector substitutes a unit scale denominator locally (no error)
and still returns one 2D point per vertex. -/
theorem C9_degenerate_unit_scale (vertices : List Q3) (a : Axis) (S : ℕ)
    ( padding_ratio : ℚ)
    (hdeg : projMaxRange vertices a < 1 / 10 ^ 9) :
    (project_and_normalize vertices a S padding_ratio =
      (let pad := (S : ℚ) * padding_ratio
       let scale := ((S : ℚ) - 2 * pad) / 1
       let offx := ((S : ℚ) - projRngX vertices a * scale) / 2
         - projMinX vertices a * scale
       let offy := ((S : ℚ) - projRngY vertices a * scale) / 2
         - projMinY vertices a * scale
       vertices.map (fun v =>
         ((axisSel a v).1 * scale + offx, (axisSel a v).2 * scale + offy)))) ∧
    (project_and_normalize vertices a S padding_ratio).length =
      vertices.length := by
  constructor
  · simp only [project_and_normalize, if_pos hdeg, projPts, List.map_map]
    rfl
  · simp [project_and_normalize, projPts]

/-- Witness for C9 at a single-vertex (zero-extent) mesh. -/
theorem C9_degenerate_unit_scale_witness :
    project_and_normalize [((1 : ℚ), 2, 3)] Axis.front 512 (6 / 100) =
      [(256, 256)] ∧
    (project_and_normalize [((1 : ℚ), 2, 3)] Axis.front 512 (6 / 100)).length
      = 1 := by
  have h := C9_degenerate_unit_scale [((1 : ℚ), 2, 3)] Axis.front 512
    (6 / 100)
    (by norm_num [projMaxRange, projRngX, projRngY, projMaxX, projMaxY,
      projMinX, projMinY, projPts, axisSel, listMin, listMax])
  refine ⟨?_, by rw [h.2]; rfl⟩
  rw [h.1]
  norm_num [projMaxRange, projRngX, projRngY, projMaxX, projMaxY,
    projMinX, projMinY, projPts, axisSel, listMin, listMax]

/-- C6: when the authored per-vertex UV array is present and its length
equals the vertex count, `extract_uvs` returns exactly those UVs
unchanged (the planar fallback path is not taken). -/
theorem C6_authored_uvs_win (vertices : List Q3) (uv : List Q2)
    (to_texture_uv : Option (List Q2))
    (hlen : uv.length = vertices.length) :
    extract_uvs vertices (some uv) to_texture_uv = uv := by
  simp [extract_uvs, hlen]

/-- Witness for C6 at a concrete mesh with authored UVs. -/
theorem C6_authored_uvs_win_witness :
    extract_uvs [((0 : ℚ), 0, 0), (1, 2, 3)] (some [(1 / 4, 3 / 4), (1, 0)])
      none = [(1 / 4, 3 / 4), (1, 0)] :=
  C6_authored_uvs_win _ _ _ (by decide)

/-- C8: when the input asset path does not exist, the run exits with a
non-zero status and writes no output file at all. -/
theorem C8_missing_input_no_outputs (fs : List String)
    (modelPath stem axisName : String) (h : modelPath ∉ fs) :
    (main_run fs modelPath stem axisName).exitCode ≠ 0 ∧
    (main_run fs modelPath stem axisName).writtenFiles = [] := by
  simp [main_run, h]

/-- Witness for C8 on an empty filesystem. -/
theorem C8_missing_input_no_outputs_witness :
    (main_run [] "missing.glb" "missing" "front").exitCode ≠ 0 ∧
    (main_run [] "missing.glb" "missing" "front").writtenFiles = [] :=
  C8_missing_input_no_outputs [] "missing.glb" "missing" "front"
    (by decide)

/-- C5: for a non-empty mesh whose projected bounding box has maximum
extent at least 1e-9, every projected 2D point lies within
`[pad, size - pad]` on both axes, where `pad = size * 0.06` (the default
padding ratio). -/
theorem C5_points_within_padding (vertices : List Q3) (a : Axis) (S : ℕ)
    (hne : vertices ≠ [])
    (hrange : 1 / 10 ^ 9 ≤ projMaxRange vertices a) :
    ∀ q ∈ project_and_normalize vertices a S (6 / 100),
      (S : ℚ) * (6 / 100) ≤ q.1 ∧ q.1 ≤ (S : ℚ) - (S : ℚ) * (6 / 100) ∧
      (S : ℚ) * (6 / 100) ≤ q.2 ∧ q.2 ≤ (S : ℚ) - (S : ℚ) * (6 / 100) := by
  intro q hq
  rw [projector_formula_aux vertices a S (6 / 100) hrange] at hq
  simp only [List.mem_map] at hq
  obtain ⟨v, hv, rfl⟩ := hq
  have hS : (0 : ℚ) ≤ (S : ℚ) := Nat.cast_nonneg S
  have hM : (0 : ℚ) < projMaxRange vertices a :=
    lt_of_lt_of_le (by norm_num) hrange
  set scale := ((S : ℚ) - 2 * ((S : ℚ) * (6 / 100))) / projMaxRange vertices a
    with hscale_def
  have hscale : (0 : ℚ) ≤ scale := by
    rw [hscale_def]
    exact div_nonneg (by nlinarith) hM.le
  have hMsc : projMaxRange vertices a * scale
      = (S : ℚ) - 2 * ((S : ℚ) * (6 / 100)) := by
    rw [hscale_def]
    field_simp
    ring
  have hp1 : projMinX vertices a * scale ≤ (axisSel a v).1 * scale :=
    mul_le_mul_of_nonneg_right (projMinX_le vertices a hv) hscale
  have hp2 : (axisSel a v).1 * scale ≤ projMaxX vertices a * scale :=
    mul_le_mul_of_nonneg_right (le_projMaxX vertices a hv) hscale
  have hp3 : projRngX vertices a * scale ≤ projMaxRange vertices a * scale :=
    mul_le_mul_of_nonneg_right (le_max_left _ _) hscale
  have hDx : projRngX vertices a * scale
      = projMaxX vertices a * scale - projMinX vertices a * scale := by
    rw [projRngX]
    ring
  have hq1 : projMinY vertices a * scale ≤ (axisSel a v).2 * scale :=
    mul_le_mul_of_nonneg_right (projMinY_le vertices a hv) hscale
  have hq2 : (axisSel a v).2 * scale ≤ projMaxY vertices a * scale :=
    mul_le_mul_of_nonneg_right (le_projMaxY vertices a hv) hscale
  have hq3 : projRngY vertices a * scale ≤ projMaxRange vertices a * scale :=
    mul_le_mul_of_nonneg_right (le_max_right _ _) hscale
  have hDy : projRngY vertices a * scale
      = projMaxY vertices a * scale - projMinY vertices a * scale := by
    rw [projRngY]
    ring
  refine ⟨by linarith, by linarith, by linarith, by linarith⟩

/-- Witness for C5 at a concrete two-vertex mesh, image size 100 and the
projected point (62/3, 6). -/
theorem C5_points_within_padding_witness :
    ((100 : ℕ) : ℚ) * (6 / 100) ≤ (((62 : ℚ) / 3, (6 : ℚ))).1 ∧
    (((62 : ℚ) / 3, (6 : ℚ))).1
      ≤ ((100 : ℕ) : ℚ) - ((100 : ℕ) : ℚ) * (6 / 100) ∧
    ((100 : ℕ) : ℚ) * (6 / 100) ≤ (((62 : ℚ) / 3, (6 : ℚ))).2 ∧
    (((62 : ℚ) / 3, (6 : ℚ))).2
      ≤ ((100 : ℕ) : ℚ) - ((100 : ℕ) : ℚ) * (6 / 100) :=
  C5_points_within_padding [((0 : ℚ), (0 : ℚ), (0 : ℚ)), (2, 3, 1)]
    Axis.front 100 (by simp)
    (by norm_num [projMaxRange, projRngX, projRngY, projMaxX, projMaxY,
      projMinX, projMinY, projPts, axisSel, listMin, listMax, min_def,
      max_def])
    ((62 : ℚ) / 3, (6 : ℚ))
    (by norm_num [project_and_normalize, projMaxRange, projRngX, projRngY,
      projMaxX, projMaxY, projMinX, projMinY, projPts, axisSel, listMin,
      listMax, min_def, max_def, List.mem_cons, Prod.mk.injEq])

/-- C7 counterexample: the UV-map image stores the truncation of
`u * 255`, not its rounding: at the covered pixel of `demoBuf` the UV
component `u = 7/1000` is stored as red channel 1, while
`round(u * 255) = round(1.785) = 2`.  The claim's encoding formula
`round(u*255)` therefore does not describe the code. -/
theorem C7_round_encoding_false :
    (uvmapPixel demoBuf 0 0).1 = 1 ∧ round ((7 / 1000 : ℚ) * 255) = 2 := by
  constructor
  · norm_num [uvmapPixel, demoBuf, encodeChannel, Int.floor_eq_iff]
  · norm_num [round_eq, Int.floor_eq_iff]

/-- C7 (amended): the UV-map image encodes each covered pixel's UV
components as the uint8 truncation `⌊u*255⌋` in the red/green channels
(alpha opaque), and decoding a stored value as `value/255` recovers the
component within `1/255` absolute error. -/
theorem C7_truncating_channel_roundtrip (buf : RasterBuf) (qy qx : ℤ)
    (u v : ℚ) (hc : buf.coverage qy qx = true)
    (huv : buf.uv_buf qy qx = some (u, v))
    (hu0 : 0 ≤ u) (hu1 : u ≤ 1) (hv0 : 0 ≤ v) (hv1 : v ≤ 1) :
    uvmapPixel buf qy qx
      = ((⌊u * 255⌋).toNat, (⌊v * 255⌋).toNat, 0, 255) ∧
    |u - (((⌊u * 255⌋).toNat : ℕ) : ℚ) / 255| ≤ 1 / 255 ∧
    |v - (((⌊v * 255⌋).toNat : ℕ) : ℚ) / 255| ≤ 1 / 255 := by
  refine ⟨by simp [uvmapPixel, hc, huv, encodeChannel], ?_, ?_⟩
  · have hf0 : (0 : ℤ) ≤ ⌊u * 255⌋ := Int.floor_nonneg.mpr (by positivity)
    have h1 : ((⌊u * 255⌋ : ℤ) : ℚ) ≤ u * 255 := Int.floor_le _
    have h2 : u * 255 < (⌊u * 255⌋ : ℤ) + 1 := Int.lt_floor_add_one _
    have hcast : ((((⌊u * 255⌋).toNat : ℕ)) : ℚ) = ((⌊u * 255⌋ : ℤ) : ℚ) := by
      exact_mod_cast Int.toNat_of_nonneg hf0
    rw [hcast, abs_le]
    constructor <;> linarith
  · have hf0 : (0 : ℤ) ≤ ⌊v * 255⌋ := Int.floor_nonneg.mpr (by positivity)
    have h1 : ((⌊v * 255⌋ : ℤ) : ℚ) ≤ v * 255 := Int.floor_le _
    have h2 : v * 255 < (⌊v * 255⌋ : ℤ) + 1 := Int.lt_floor_add_one _
    have hcast : ((((⌊v * 255⌋).toNat : ℕ)) : ℚ) = ((⌊v * 255⌋ : ℤ) : ℚ) := by
      exact_mod_cast Int.toNat_of_nonneg hf0
    rw [hcast, abs_le]
    constructor <;> linarith

/-- Witness for the amended C7 at the concrete one-pixel buffer. -/
theorem C7_truncating_channel_roundtrip_witness :
    uvmapPixel demoBuf 0 0
      = ((⌊(7 / 1000 : ℚ) * 255⌋).toNat, (⌊(0 : ℚ) * 255⌋).toNat, 0, 255) ∧
    |(7 / 1000 : ℚ) - (((⌊(7 / 1000 : ℚ) * 255⌋).toNat : ℕ) : ℚ) / 255|
      ≤ 1 / 255 ∧
    |(0 : ℚ) - (((⌊(0 : ℚ) * 255⌋).toNat : ℕ) : ℚ) / 255| ≤ 1 / 255 :=
  C7_truncating_channel_roundtrip demoBuf 0 0 (7 / 1000) 0
    (by norm_num [demoBuf]) (by norm_num [demoBuf]) (by norm_num)
    (by norm_num) le_rfl (by norm_num)

lemma clamp01_nonneg (q : ℚ) : 0 ≤ clamp01 q :=
  le_min (by norm_num) (le_max_left 0 q)

lemma clamp01_le_one (q : ℚ) : clamp01 q ≤ 1 :=
  min_le_left 1 _

lemma rasterizeTri_inv (S : ℕ) (v0 v1 v2 uv0 uv1 uv2 : Q2)
    (buf : RasterBuf) (h : BufInv buf) :
    BufInv (rasterizeTri S v0 v1 v2 uv0 uv1 uv2 buf) := by
  unfold rasterizeTri
  split
  · exact h
  · split
    · exact h
    · intro qy qx
      by_cases hhit : triHit S v0 v1 v2 qx qy
      · refine ⟨by simp [hhit], ?_⟩
        intro u v huv
        simp only [if_pos hhit, Option.some.injEq, Prod.mk.injEq] at huv
        obtain ⟨hu, hv⟩ := huv
        exact ⟨hu ▸ clamp01_nonneg _, hu ▸ clamp01_le_one _,
          hv ▸ clamp01_nonneg _, hv ▸ clamp01_le_one _⟩
      · refine ⟨?_, ?_⟩
        · simpa [hhit] using (h qy qx).1
        · intro u v huv
          simp only [if_neg hhit] at huv
          exact (h qy qx).2 u v huv

lemma rasterize_foldl_inv (verts2d : List Q2) (uvs : List Q2) (S : ℕ) :
    ∀ (faces : List (ℕ × ℕ × ℕ)) (buf : RasterBuf), BufInv buf →
      BufInv (faces.foldl
        (fun buf f =>
          rasterizeTri S (verts2d.getD f.1 (0, 0))
            (verts2d.getD f.2.1 (0, 0)) (verts2d.getD f.2.2 (0, 0))
            (uvs.getD f.1 (0, 0)) (uvs.getD f.2.1 (0, 0))
            (uvs.getD f.2.2 (0, 0)) buf)
        buf) := by
  intro faces
  induction faces with
  | nil => intro buf hb; exact hb
  | cons f rest ih =>
    intro buf hb
    exact ih _ (rasterizeTri_inv _ _ _ _ _ _ _ _ hb)

/-- C4: after rasterizing any face list (hence also after every
per-triangle step, each being the rasterization of a prefix), the
buffer satisfies the RasterBuffer invariant: a pixel's UV value is
defined iff its coverage flag is set, and every defined UV component
(clamped before writing) lies in `[0, 1]`. -/
theorem C4_raster_buffer_invariant (verts2d : List Q2)
    (faces : List (ℕ × ℕ × ℕ)) (uvs : List Q2) (S : ℕ) :
    BufInv (rasterize verts2d faces uvs S) := by
  unfold rasterize
  exact rasterize_foldl_inv verts2d uvs S faces initBuf
    (fun qy qx => ⟨by simp [initBuf], by intro u v huv; simp [initBuf] at huv⟩)

/-- C2 counterexample: the Rasterizer's skip threshold tests the
barycentric denominator, which is twice the signed area, so a sliver
triangle with signed-area magnitude `0.75e-10 < 1e-10` (denominator
`1.5e-10`) is not skipped: it writes pixel `(0,0)` of a 4x4 buffer,
refuting the claim that such a triangle writes nothing. -/
theorem C2_area_threshold_false :
    |signedArea (0, 0) (3, 3) (3, 3 + 1 / (2 * 10 ^ 10))| < 1 / 10 ^ 10 ∧
    (rasterizeTri 4 (0, 0) (3, 3) (3, 3 + 1 / (2 * 10 ^ 10)) (0, 0) (1, 0)
      (0, 1) initBuf).coverage 0 0 = true := by
  constructor
  · rw [abs_lt]
    constructor <;> norm_num [signedArea]
  · have hbb : ¬ (triX0 (0, 0) (3, 3) (3, 3 + 1 / (2 * 10 ^ 10)) >
        triX1 4 (0, 0) (3, 3) (3, 3 + 1 / (2 * 10 ^ 10)) ∨
        triY0 (0, 0) (3, 3) (3, 3 + 1 / (2 * 10 ^ 10)) >
        triY1 4 (0, 0) (3, 3) (3, 3 + 1 / (2 * 10 ^ 10))) := by
      push_neg
      constructor
      · norm_num [triX0, triX1, min_def, max_def, Int.floor_eq_iff,
          Int.ceil_le]
      · norm_num [triY0, triY1, min_def, max_def, Int.floor_eq_iff,
          Int.le_ceil_iff]
    have hden : ¬ (|baryDenom (0, 0) (3, 3) (3, 3 + 1 / (2 * 10 ^ 10))|
        < 1 / 10 ^ 10) := by
      rw [not_lt, le_abs]
      left
      norm_num [baryDenom]
    have hhit : triHit 4 (0, 0) (3, 3) (3, 3 + 1 / (2 * 10 ^ 10)) 0 0 := by
      unfold triHit
      refine ⟨?_, ?_, ?_, ?_, ?_, ?_, ?_⟩
      · norm_num [triX0, min_def, Int.floor_eq_iff]
      · norm_num [triX1, max_def, Int.le_ceil_iff]
      · norm_num [triY0, min_def, Int.floor_eq_iff]
      · norm_num [triY1, max_def, Int.le_ceil_iff]
      · norm_num [baryW0, baryDenom]
      · norm_num [baryW1, baryDenom]
      · norm_num [baryW2, baryW0, baryW1, baryDenom]
    unfold rasterizeTri
    rw [if_neg hbb, if_neg hden]
    show (if triHit 4 (0, 0) (3, 3) (3, 3 + 1 / (2 * 10 ^ 10)) 0 0 then true
      else initBuf.coverage 0 0) = true
    rw [if_pos hhit]

/-- C2 (amended): the triangle is skipped entirely (buffer unchanged)
when the magnitude of its barycentric denominator — twice its signed
area — is below 1e-10; otherwise a pixel is written iff it hits the
triangle (`triHit`: it lies in the clamped integer bounding box and all
three barycentric weights at its center are ≥ 0), the written UV being
the clamped interpolation, and all other pixels are untouched. -/
theorem C2_raster_write_characterization (S : ℕ)
    (v0 v1 v2 uv0 uv1 uv2 : Q2) (buf : RasterBuf) (qx qy : ℤ) :
    (|baryDenom v0 v1 v2| < 1 / 10 ^ 10 →
      rasterizeTri S v0 v1 v2 uv0 uv1 uv2 buf = buf) ∧
    (1 / 10 ^ 10 ≤ |baryDenom v0 v1 v2| →
      ((rasterizeTri S v0 v1 v2 uv0 uv1 uv2 buf).coverage qy qx = true ↔
        (triHit S v0 v1 v2 qx qy ∨ buf.coverage qy qx = true)) ∧
      (triHit S v0 v1 v2 qx qy →
        (rasterizeTri S v0 v1 v2 uv0 uv1 uv2 buf).uv_buf qy qx =
          some (clamp01 (interpUV v0 v1 v2 uv0.1 uv1.1 uv2.1 qx qy),
                clamp01 (interpUV v0 v1 v2 uv0.2 uv1.2 uv2.2 qx qy))) ∧
      (¬ triHit S v0 v1 v2 qx qy →
        (rasterizeTri S v0 v1 v2 uv0 uv1 uv2 buf).uv_buf qy qx =
          buf.uv_buf qy qx ∧
        (rasterizeTri S v0 v1 v2 uv0 uv1 uv2 buf).coverage qy qx =
          buf.coverage qy qx)) := by
  constructor
  · intro hsmall
    unfold rasterizeTri
    split
    · rfl
    · rfl
  · intro hbig
    unfold rasterizeTri
    split
    · rename_i hempty
      have hnothit : ¬ triHit S v0 v1 v2 qx qy := by
        intro hh
        unfold triHit at hh
        obtain ⟨h1, h2, h3, h4, -⟩ := hh
        rcases hempty with h | h
        · linarith
        · linarith
      exact ⟨by simp [hnothit], fun hh => absurd hh hnothit,
        fun _ => ⟨rfl, rfl⟩⟩
    · split
      · rename_i h2
        exact absurd h2 (not_lt.mpr hbig)
      · refine ⟨?_, ?_, ?_⟩
        · by_cases hh : triHit S v0 v1 v2 qx qy
          · simp [hh]
          · simp [hh]
        · intro hh
          simp [hh]
        · intro hh
          exact ⟨by simp [hh], by simp [hh]⟩

/-- Witness for the amended C2: a concrete right triangle on a 4x4
buffer covers pixel `(1,1)`. -/
theorem C2_raster_write_characterization_witness :
    (rasterizeTri 4 (0, 0) (3, 0) (0, 3) (0, 0) (1, 0) (0, 1)
      initBuf).coverage 1 1 = true :=
  ((C2_raster_write_characterization 4 (0, 0) (3, 0) (0, 3) (0, 0) (1, 0)
      (0, 1) initBuf 1 1).2
    (by rw [le_abs]; left; norm_num [baryDenom])).1.mpr
    (Or.inl (by
      unfold triHit
      refine ⟨?_, ?_, ?_, ?_, ?_, ?_, ?_⟩
      · norm_num [triX0, min_def, Int.floor_eq_iff]
      · norm_num [triX1, max_def, Int.le_ceil_iff]
      · norm_num [triY0, min_def, Int.floor_eq_iff]
      · norm_num [triY1, max_def, Int.le_ceil_iff]
      · norm_num [baryW0, baryDenom]
      · norm_num [baryW1, baryDenom]
      · norm_num [baryW2, baryW0, baryW1, baryDenom]))

lemma bcStep_some {m : Q3} {fi : ℕ} {used : Finset ℕ}
    {acc : Option (ℕ × ℚ)} {jc : ℕ × Q3} {jd : ℕ × ℚ}
    (hacc : ∀ jd', acc = some jd' → jd'.1 ∉ used ∧ jd'.1 ≠ fi)
    (h : bcStep m fi used acc jc = some jd) :
    jd.1 ∉ used ∧ jd.1 ≠ fi := by
  unfold bcStep at h
  by_cases hskip : jc.1 = fi ∨ jc.1 ∈ used
  · rw [if_pos hskip] at h
    exact hacc jd h
  · rw [if_neg hskip] at h
    push_neg at hskip
    cases acc with
    | none =>
      have h' : some (jc.1, cheb jc.2 m) = some jd := h
      rw [Option.some.injEq] at h'
      rw [← h']
      exact ⟨hskip.2, hskip.1⟩
    | some best =>
      have h' : (if cheb jc.2 m < best.2 then some (jc.1, cheb jc.2 m)
          else some best) = some jd := h
      by_cases hlt : cheb jc.2 m < best.2
      · rw [if_pos hlt, Option.some.injEq] at h'
        rw [← h']
        exact ⟨hskip.2, hskip.1⟩
      · rw [if_neg hlt, Option.some.injEq] at h'
        rw [← h']
        exact hacc best rfl

lemma bc_foldl_some {m : Q3} {fi : ℕ} {used : Finset ℕ} :
    ∀ (l : List (ℕ × Q3)) (acc : Option (ℕ × ℚ)),
      (∀ jd', acc = some jd' → jd'.1 ∉ used ∧ jd'.1 ≠ fi) →
      ∀ jd, l.foldl (bcStep m fi used) acc = some jd →
        jd.1 ∉ used ∧ jd.1 ≠ fi := by
  intro l
  induction l with
  | nil => intro acc hacc jd h; exact hacc jd h
  | cons jc rest ih =>
    intro acc hacc jd h
    rw [List.foldl_cons] at h
    exact ih (bcStep m fi used acc jc)
      (fun jd' hjd' => bcStep_some hacc hjd') jd h

lemma bestCandidate_spec {cs : List Q3} {m : Q3} {fi : ℕ}
    {used : Finset ℕ} {jd : ℕ × ℚ}
    (h : bestCandidate cs m fi used = some jd) :
    jd.1 ∉ used ∧ jd.1 ≠ fi := by
  unfold bestCandidate at h
  exact bc_foldl_some _ none (fun jd' hjd' => Option.noConfusion hjd') jd h

lemma greedyStep_spec {cs ms : List Q3} {tol : ℚ} {fi : ℕ}
    {used : Finset ℕ} {j : ℕ} {used' : Finset ℕ}
    (h : greedyStep cs ms tol fi used = some (j, used')) :
    fi ∉ used ∧ j ∉ used ∧ j ≠ fi ∧ used' = insert fi (insert j used) := by
  unfold greedyStep at h
  by_cases hu : fi ∈ used
  · rw [if_pos hu] at h
    exact Option.noConfusion h
  · rw [if_neg hu] at h
    cases hbc : bestCandidate cs (ms.getD fi (0, 0, 0)) fi used with
    | none =>
      rw [hbc] at h
      exact Option.noConfusion h
    | some jd =>
      rw [hbc] at h
      have h' : (if jd.2 ≤ tol then
          some (jd.1, insert fi (insert jd.1 used)) else none)
          = some (j, used') := h
      by_cases htol : jd.2 ≤ tol
      · rw [if_pos htol, Option.some.injEq, Prod.mk.injEq] at h'
        obtain ⟨hju, hjfi⟩ := bestCandidate_spec hbc
        obtain ⟨hj, hused⟩ := h'
        subst hj
        subst hused
        exact ⟨hu, hju, hjfi, rfl⟩
      · rw [if_neg htol] at h'
        exact Option.noConfusion h'

lemma greedyAux_cons_none {cs ms : List Q3} {tol : ℚ} {fi : ℕ}
    {rest : List ℕ} {used : Finset ℕ}
    (h : greedyStep cs ms tol fi used = none) :
    greedyAux cs ms tol (fi :: rest) used = greedyAux cs ms tol rest used := by
  show (match greedyStep cs ms tol fi used with
    | none => greedyAux cs ms tol rest used
    | some ju => (fi, ju.1) :: greedyAux cs ms tol rest ju.2) = _
  rw [h]

lemma greedyAux_cons_some {cs ms : List Q3} {tol : ℚ} {fi : ℕ}
    {rest : List ℕ} {used : Finset ℕ} {j : ℕ} {used' : Finset ℕ}
    (h : greedyStep cs ms tol fi used = some (j, used')) :
    greedyAux cs ms tol (fi :: rest) used =
      (fi, j) :: greedyAux cs ms tol rest used' := by
  show (match greedyStep cs ms tol fi used with
    | none => greedyAux cs ms tol rest used
    | some ju => (fi, ju.1) :: greedyAux cs ms tol rest ju.2) = _
  rw [h]

lemma greedyAux_invariant (cs ms : List Q3) (tol : ℚ) :
    ∀ (l : List ℕ) (used : Finset ℕ),
      (((greedyAux cs ms tol l used).flatMap fun p => [p.1, p.2]).Nodup) ∧
      (∀ x ∈ (greedyAux cs ms tol l used).flatMap fun p => [p.1, p.2],
        x ∉ used) ∧
      (∀ p ∈ greedyAux cs ms tol l used, p.1 ≠ p.2) := by
  intro l
  induction l with
  | nil =>
    intro used
    refine ⟨List.nodup_nil, ?_, ?_⟩
    · intro x hx
      exact absurd hx (List.not_mem_nil x)
    · intro p hp
      exact absurd hp (List.not_mem_nil p)
  | cons fi rest ih =>
    intro used
    cases hgs : greedyStep cs ms tol fi used with
    | none =>
      rw [greedyAux_cons_none hgs]
      exact ih used
    | some ju =>
      obtain ⟨j, used'⟩ := ju
      obtain ⟨hu, hju, hjfi, hins⟩ := greedyStep_spec hgs
      subst hins
      rw [greedyAux_cons_some hgs]
      have hrec := ih (insert fi (insert j used))
      have hflat : ((((fi, j) :: greedyAux cs ms tol rest
          (insert fi (insert j used))).flatMap fun p => [p.1, p.2]))
          = fi :: j :: ((greedyAux cs ms tol rest
              (insert fi (insert j used))).flatMap fun p => [p.1, p.2]) := rfl
      have hfi_not : fi ∉ (greedyAux cs ms tol rest
          (insert fi (insert j used))).flatMap fun p => [p.1, p.2] :=
        fun hmem => (hrec.2.1 fi hmem) (Finset.mem_insert_self _ _)
      have hj_not : j ∉ (greedyAux cs ms tol rest
          (insert fi (insert j used))).flatMap fun p => [p.1, p.2] :=
        fun hmem => (hrec.2.1 j hmem)
          (Finset.mem_insert_of_mem (Finset.mem_insert_self _ _))
      refine ⟨?_, ?_, ?_⟩
      · rw [hflat]
        refine List.nodup_cons.mpr ⟨?_, List.nodup_cons.mpr ⟨hj_not, hrec.1⟩⟩
        intro hmem
        rcases List.mem_cons.mp hmem with hfj | hmem'
        · exact hjfi hfj.symm
        · exact hfi_not hmem'
      · rw [hflat]
        intro x hx
        rcases List.mem_cons.mp hx with rfl | hx'
        · exact hu
        · rcases List.mem_cons.mp hx' with rfl | hx''
          · exact hju
          · exact fun hxu => (hrec.2.1 x hx'')
              (Finset.mem_insert_of_mem (Finset.mem_insert_of_mem hxu))
      · intro p hp
        rcases List.mem_cons.mp hp with rfl | hp'
        · exact fun hfj => hjfi (Eq.symm hfj)
        · exact hrec.2.2 p hp'

/-- C3: the SymmetryMatcher's matched face pairs reference each triangle
at most once (all face indices across the pair list are distinct), never
match a triangle to itself, and each matched face pair contributes
exactly three source/target UV entries, pairing vertex `k` of face `i`
with vertex `k` of face `j`. -/
theorem C3_symmetry_matching_invariants (verts : List Q3)
    (faces : List (ℕ × ℕ × ℕ)) (uvs : List Q2) (s : SymAxis) (tol : ℚ) :
    (((matchedFacePairs verts faces s tol).flatMap
        fun p => [p.1, p.2]).Nodup) ∧
    (∀ p ∈ matchedFacePairs verts faces s tol, p.1 ≠ p.2) ∧
    find_symmetric_uv_pairs verts faces uvs s tol =
      (matchedFacePairs verts faces s tol).flatMap (fun p =>
        [⟨uvs.getD (faces.getD p.1 (0, 0, 0)).1 (0, 0),
          uvs.getD (faces.getD p.2 (0, 0, 0)).1 (0, 0)⟩,
         ⟨uvs.getD (faces.getD p.1 (0, 0, 0)).2.1 (0, 0),
          uvs.getD (faces.getD p.2 (0, 0, 0)).2.1 (0, 0)⟩,
         ⟨uvs.getD (faces.getD p.1 (0, 0, 0)).2.2 (0, 0),
          uvs.getD (faces.getD p.2 (0, 0, 0)).2.2 (0, 0)⟩]) := by
  have hinv := greedyAux_invariant (faces.map (centroid verts))
    ((faces.map (centroid verts)).map (mirrorPt s)) tol
    (List.range faces.length) ∅
  exact ⟨hinv.1, hinv.2.2, rfl⟩

lemma dropHeader_append (p : List Char) : ∀ s : List Char,
    dropHeader p (p ++ s) = some s := by
  induction p with
  | nil => intro s; rfl
  | cons c cs ih =>
    intro s
    show (if c = c then dropHeader cs (cs ++ s) else none) = some s
    rw [if_pos rfl]
    exact ih s

lemma dropHeader_eq_some : ∀ (p s r : List Char),
    dropHeader p s = some r → s = p ++ r := by
  intro p
  induction p with
  | nil =>
    intro s r h
    have h' : some s = some r := h
    rw [Option.some.injEq] at h'
    rw [h']
    rfl
  | cons c cs ih =>
    intro s r h
    cases s with
    | nil => exact Option.noConfusion h
    | cons a as =>
      have h' : (if a = c then dropHeader cs as else none) = some r := h
      by_cases hac : a = c
      · rw [if_pos hac] at h'
        rw [hac, List.cons_append, ih as r h']
      · rw [if_neg hac] at h'
        exact Option.noConfusion h'

lemma b64_header_append_none (r : List Char) :
    b64decodeList (dataUrlHeader ++ r) = none := by
  show b64decodeList ('d' :: 'a' :: 't' :: 'a' :: ':' :: 'i' :: 'm' :: 'a'
    :: ('g' :: 'e' :: '/' :: 'p' :: 'n' :: 'g' :: ';' :: 'b' :: 'a' :: 's'
    :: 'e' :: '6' :: '4' :: ',' :: [] ++ r)) = none
  simp +decide [b64decodeList, b64CharVal]

lemma stripHeader_append (p : List Char) :
    stripHeader (dataUrlHeader ++ p) = p := by
  unfold stripHeader
  rw [dropHeader_append]

lemma stripHeader_of_decodable {s : List Char} {bs : List ℕ}
    (h : b64decodeList s = some bs) : stripHeader s = s := by
  unfold stripHeader
  cases hd : dropHeader dataUrlHeader s with
  | none => rfl
  | some r =>
    exfalso
    rw [dropHeader_eq_some dataUrlHeader s r hd, b64_header_append_none r]
      at h
    exact Option.noConfusion h

/-- C10: for a form field holding well-formed base64 (with or without
the `data:image/png;base64,` prefix), `save_paint` decodes the payload,
targets the single hard-coded model path regardless of the content
(no PNG or dimension validation: any decodable byte string is accepted),
and answers body `"OK"` with status 200. -/
theorem C10_save_paint_fixed_path (p : List Char) (bs : List ℕ)
    (h : b64decodeList p = some bs) :
    save_paint (dataUrlHeader ++ p) =
      some { path := "static/models/Lamborginhi Aventador_diffuse.jpg",
             bytes := bs, body := "OK", status := 200 } ∧
    save_paint p =
      some { path := "static/models/Lamborginhi Aventador_diffuse.jpg",
             bytes := bs, body := "OK", status := 200 } := by
  constructor
  · unfold save_paint
    rw [stripHeader_append, h]
  · unfold save_paint
    rw [stripHeader_of_decodable h, h]

/-- Witness for C10 on the payload `"TWFu"` (bytes `[77, 97, 110]`,
which is not a PNG). -/
theorem C10_save_paint_fixed_path_witness :
    save_paint (dataUrlHeader ++ ['T', 'W', 'F', 'u']) =
      some { path := "static/models/Lamborginhi Aventador_diffuse.jpg",
             bytes := [77, 97, 110], body := "OK", status := 200 } ∧
    save_paint ['T', 'W', 'F', 'u'] =
      some { path := "static/models/Lamborginhi Aventador_diffuse.jpg",
             bytes := [77, 97, 110], body := "OK", status := 200 } :=
  C10_save_paint_fixed_path ['T', 'W', 'F', 'u'] [77, 97, 110] (by decide)
